import Mathlib

/-! Verification development for the Download-Dropout scraper
(`src/download_dropout.py`).

The script has two phases: a catalog walker (paginate the series index
until HTTP 400, then probe each show's seasons until a season page yields
no episode links) and a download dispatcher (write collected URLs to a
file and invoke yt-dlp once).  We shallowly embed the script's functions
as Lean functions.  Effects are made explicit:

* network attempts are an oracle `Nat → Attempt` (for the retry loop) or
  pre-parsed page contents supplied by a `ScrapeEnv` (for the walkers);
* unbounded `while True` loops take a fuel parameter and return `none`
  when the fuel is exhausted, so non-termination is observable;
* Python exceptions are values in `Except PyExn`;
* writes to the output file are a list of `FileOp`s, interpreted by
  `applyOps` over an arbitrary previous file content.
-/

namespace DownloadDropout

/-- The constant `REQUEST_DELAY = 2.5` seconds between requests (source line 24). -/
def REQUEST_DELAY : ℚ := 5 / 2

/-- The constant `BASE_URL` (source line 13). -/
def BASE_URL : String := "https://watch.dropout.tv"

/-- The constant `SERIES_INDEX = BASE_URL + "/series"` (source line 14). -/
def SERIES_INDEX : String := BASE_URL ++ "/series"

/-- Outcome of one `session.get` attempt: either a response carrying an
HTTP status code, or a raised `RequestException` (connection error or
timeout). -/
inductive Attempt where
  | response (status : Nat)
  | netError
deriving DecidableEq

/-- What one iteration of the `while True` loop of `blocking_get` does
with an attempt: return a response (after sleeping `sleepAfter`), or
sleep `backoff` and retry. -/
inductive StepResult where
  | done (status : Nat) (sleepAfter : ℚ)
  | retry (backoff : ℚ)
deriving DecidableEq

/-- One iteration of the loop body of `blocking_get` (source lines 35-57):
a 400 response is returned immediately when `allow_400_stop` is set;
`raise_for_status` raises `HTTPError` exactly for statuses in `[400, 600)`,
whose handler re-checks the 400 case and otherwise sleeps
`REQUEST_DELAY * 2` and retries; a `RequestException` likewise sleeps
`REQUEST_DELAY * 2` and retries; a non-error response sleeps
`REQUEST_DELAY` and is returned. -/
def blockingGetStep (allow400 : Bool) (a : Attempt) : StepResult :=
  match a with
  | .response s =>
      if allow400 = true ∧ s = 400 then .done s 0
      else if 400 ≤ s ∧ s < 600 then
        if allow400 = true ∧ s = 400 then .done s 0
        else .retry (REQUEST_DELAY * 2)
      else .done s REQUEST_DELAY
  | .netError => .retry (REQUEST_DELAY * 2)

/-- The retry loop of `blocking_get`, driven by an oracle `attempts` giving
the outcome of the `i`-th fetch attempt.  `fuel` bounds the number of
iterations we are willing to observe; `none` means the loop did not
return within `fuel` iterations.  On `some s`, `s` is the status code of
the returned response. -/
def blockingGetAux (allow400 : Bool) (attempts : Nat → Attempt) :
    Nat → Nat → Option Nat
  | 0, _ => none
  | fuel + 1, i =>
      match blockingGetStep allow400 (attempts i) with
      | .done s _ => some s
      | .retry _ => blockingGetAux allow400 attempts fuel (i + 1)

/-- The function `blocking_get` (source lines 30-57), observed for `fuel` attempts. -/
def blocking_get (allow400 : Bool) (attempts : Nat → Attempt) (fuel : Nat) :
    Option Nat :=
  blockingGetAux allow400 attempts fuel 0

/-- An attempt is a transient failure for `blocking_get`: a raised
`RequestException`, or an HTTP error status in `[400, 600)` that is not
the allowed pagination boundary. -/
def isTransientFailure (allow400 : Bool) (a : Attempt) : Prop :=
  match a with
  | .response s => 400 ≤ s ∧ s < 600 ∧ ¬(allow400 = true ∧ s = 400)
  | .netError => True

/-- A series record `{title, url}` as built by `get_series_from_page`
(source lines 75-78). -/
structure Series where
  title : String
  url : String
deriving DecidableEq

/-- One `li.js-collection-item.item-type-series` element of an index page,
as seen by the selectors of `get_series_from_page` (source lines 70-72):
the `href` of a matching `a.browse-item-link[href]` child if one exists,
and the stripped text of a `.browse-item-title strong` child if one
exists. -/
structure IndexItem where
  link : Option String
  titleText : Option String
deriving DecidableEq

/-- Outcome of fetching one series-index page with `allow_400_stop=True`:
either the pagination-boundary status 400, or a page with its list of
matching series elements. -/
inductive IndexFetch where
  | boundary
  | page (items : List IndexItem)
deriving DecidableEq

/-- The network/HTML environment of the catalog walker: the parsed content
of each series-index page, the `a.browse-item-link[href]` hrefs found on
any other fetched page, and the `urllib.parse.urljoin` function (an
external library, left abstract). -/
structure ScrapeEnv where
  indexPage : Nat → IndexFetch
  pageHrefs : String → List String
  urljoin : String → String → String

/-- The URL fetched for series-index page `n` (source line 61). -/
def indexPageUrl (n : Nat) : String :=
  if n = 1 then SERIES_INDEX else SERIES_INDEX ++ "?page=" ++ toString n

/-- The extraction loop of `get_series_from_page` (source lines 70-79):
keep every item with a link, with title text defaulting to `"Unknown"`. -/
def parseSeriesItems (items : List IndexItem) : List Series :=
  items.filterMap fun it =>
    it.link.map fun href => Series.mk (it.titleText.getD "Unknown") href

/-- The function `get_series_from_page` (source lines 59-79): `None` on status 400,
otherwise the parsed series of the page. -/
def get_series_from_page (env : ScrapeEnv) (page : Nat) : Option (List Series) :=
  match env.indexPage page with
  | .boundary => none
  | .page items => some (parseSeriesItems items)

/-- The body of the merge loop of `scrape_all_series` (source lines 93-96),
acting on the state `(all_series, seen)`: append the series and record its
URL unless the URL was already seen. -/
def mergeStep (st : List Series × List String) (s : Series) :
    List Series × List String :=
  if s.url ∈ st.2 then st else (st.1 ++ [s], st.2 ++ [s.url])

/-- The `while True` pagination loop of `scrape_all_series` (source lines
88-97), with fuel.  On termination it returns the accumulated series list
together with the list of index-page URLs fetched, in fetch order. -/
def scrapeAllSeriesAux (env : ScrapeEnv) :
    Nat → Nat → List Series × List String → Option (List Series × List String)
  | 0, _, _ => none
  | fuel + 1, page, st =>
      match get_series_from_page env page with
      | none => some (st.1, [indexPageUrl page])
      | some batch =>
          (scrapeAllSeriesAux env fuel (page + 1) (batch.foldl mergeStep st)).map
            fun r => (r.1, indexPageUrl page :: r.2)

/-- The function `scrape_all_series` (source lines 81-100), with fuel; also returns the
fetched index-page URLs. -/
def scrape_all_series (env : ScrapeEnv) (fuel : Nat) :
    Option (List Series × List String) :=
  scrapeAllSeriesAux env fuel 1 ([], [])

/-- The batch a given index page contributes: its parsed series, or `[]`
at the boundary. -/
def indexBatch (env : ScrapeEnv) (q : Nat) : List Series :=
  match env.indexPage q with
  | .boundary => []
  | .page items => parseSeriesItems items

/-- First-occurrence de-duplication by URL: keep a series unless its URL
is in `seen`, recording kept URLs.  A reference function used to describe
what the merge loop of `scrape_all_series` computes. -/
def dedupByUrl : List Series → List String → List Series
  | [], _ => []
  | s :: rest, seen =>
      if s.url ∈ seen then dedupByUrl rest seen
      else s :: dedupByUrl rest (seen ++ [s.url])

/-- The invariant the merge loop maintains on `(all_series, seen)`:
`seen` is exactly the list of URLs of `all_series`, without duplicates. -/
def seenInv (st : List Series × List String) : Prop :=
  st.2 = st.1.map Series.url ∧ st.2.Nodup

/-- The URL fetched for season `n` of a show (source line 104). -/
def seasonUrl (showUrl : String) (n : Nat) : String :=
  showUrl ++ "/season:" ++ toString n

/-- The function `get_episode_links` (source lines 102-119): the hrefs of all
`a.browse-item-link[href]` anchors of the season page, each joined onto
the show URL with `urljoin`. -/
def get_episode_links (env : ScrapeEnv) (showUrl : String) (n : Nat) :
    List String :=
  (env.pageHrefs (seasonUrl showUrl n)).map (env.urljoin showUrl)

/-- The `while True` season loop of `scrape_show_episodes` (source lines
130-140), with fuel.  On termination it returns the accumulated episode
URLs together with the list of season-page URLs fetched, in fetch
order. -/
def scrapeShowEpisodesAux (env : ScrapeEnv) (showUrl : String) :
    Nat → Nat → List String → Option (List String × List String)
  | 0, _, _ => none
  | fuel + 1, season, acc =>
      let episodes := get_episode_links env showUrl season
      if episodes = [] then some (acc, [seasonUrl showUrl season])
      else
        (scrapeShowEpisodesAux env showUrl fuel (season + 1) (acc ++ episodes)).map
          fun r => (r.1, seasonUrl showUrl season :: r.2)

/-- The function `scrape_show_episodes` (source lines 121-142), with fuel. -/
def scrape_show_episodes (env : ScrapeEnv) (sh : Series) (fuel : Nat) :
    Option (List String × List String) :=
  scrapeShowEpisodesAux env sh.url fuel 1 []

/-- Outcome chosen by the operating system for the single
`subprocess.run` call of `run_ytdlp`. -/
inductive SubprocOutcome where
  | ok
  | calledProcessError (code : Int)
  | keyboardInterrupt
deriving DecidableEq

/-- The Python exceptions relevant to `run_ytdlp`. -/
inductive PyExn where
  | fileNotFound
  | calledProcessError (code : Int)
  | keyboardInterrupt
deriving DecidableEq

/-- The parts of the operating system the download dispatcher consults:
existence of the cookie and archive files, `os.name`, `shutil.which`,
`os.path.isfile`, `os.path.abspath`, and the outcome of the downloader
subprocess. -/
structure SysEnv where
  cookieExists : Bool
  archiveExists : Bool
  osIsWindows : Bool
  which : String → Option String
  isFile : String → Bool
  abspath : String → String
  subprocOutcome : SubprocOutcome

/-- The function `resolve_binary` (source lines 145-161): for each candidate name, the
search path first, then the working directory. -/
def resolve_binary (sys : SysEnv) (names : List String) : Option String :=
  names.findSome? fun name =>
    match sys.which name with
    | some p => some p
    | none =>
        if sys.isFile (sys.abspath name) then some (sys.abspath name)
        else none

/-- The function `get_ytdlp_binary` (source lines 164-172): raises `FileNotFoundError`
when no candidate resolves. -/
def get_ytdlp_binary (sys : SysEnv) : Except PyExn String :=
  match resolve_binary sys
      (if sys.osIsWindows then ["yt-dlp.exe", "yt-dlp"] else ["yt-dlp"]) with
  | some b => .ok b
  | none => .error .fileNotFound

/-- The function `get_ffmpeg_path` (source lines 175-180): optional, `None` allowed. -/
def get_ffmpeg_path (sys : SysEnv) : Option String :=
  resolve_binary sys
    (if sys.osIsWindows then ["ffmpeg.exe", "ffmpeg"] else ["ffmpeg"])

/-- The call `subprocess.run(command, check=True)` as an exception-raising
operation. -/
def subprocess_run (o : SubprocOutcome) : Except PyExn Unit :=
  match o with
  | .ok => .ok ()
  | .calledProcessError c => .error (.calledProcessError c)
  | .keyboardInterrupt => .error .keyboardInterrupt

/-- What `run_ytdlp` reported on the console when it returned. -/
inductive YtdlpOutcome where
  | missingCookies
  | missingBinary
  | downloadComplete
  | reportedExitCode (code : Int)
  | reportedCancelled
deriving DecidableEq

/-- The observable result of a `run_ytdlp` call: whether the subprocess
was invoked, and what was reported. -/
structure YtdlpReport where
  invokedSubprocess : Bool
  outcome : YtdlpOutcome
deriving DecidableEq

/-- The function `run_ytdlp` (source lines 183-234).  An `.error` value would be an
exception escaping the function; the `try/except` blocks of the source
appear as the match arms that turn `.error` results of sub-operations
back into `.ok` returns.  The construction of the fixed command list and
the optional `--ffmpeg-location` flag produce no observable effect here
and are not modelled. -/
def run_ytdlp (sys : SysEnv) : Except PyExn YtdlpReport :=
  if sys.cookieExists = false then .ok ⟨false, .missingCookies⟩
  else
    match get_ytdlp_binary sys with
    | .error .fileNotFound => .ok ⟨false, .missingBinary⟩
    | .error e => .error e
    | .ok _ =>
        match subprocess_run sys.subprocOutcome with
        | .ok _ => .ok ⟨true, .downloadComplete⟩
        | .error (.calledProcessError c) => .ok ⟨true, .reportedExitCode c⟩
        | .error .keyboardInterrupt => .ok ⟨true, .reportedCancelled⟩
        | .error e => .error e

/-- An operation on the output file `urls.txt`: `open(..., "w")` followed
by no writes truncates it; each `f.write(url + "\n")` appends one line. -/
inductive FileOp where
  | truncate
  | append (line : String)
deriving DecidableEq

/-- Interpret one file operation on a file content given as its list of
lines. -/
def applyOp (content : List String) : FileOp → List String
  | .truncate => []
  | .append l => content ++ [l]

/-- Interpret a sequence of file operations, starting from the content the
file had before the run. -/
def applyOps (content : List String) (ops : List FileOp) : List String :=
  ops.foldl applyOp content

/-- The whole environment of a run of the script. -/
structure MainEnv where
  sys : SysEnv
  scrape : ScrapeEnv

/-- The observable result of a terminating run of the script: process
exit code, every URL fetched over the network in order, the operations
performed on the output file, the collected episode URLs, and whether and
how the download phase ran. -/
structure MainResult where
  exitCode : Int
  fetched : List String
  fileOps : List FileOp
  urls : List String
  downloadInvoked : Bool
  ytdlpResult : Option (Except PyExn YtdlpReport)

/-- The per-show episode loop of the `__main__` block (source lines
296-302) over the series list, with fuel; returns all episode URLs in
order together with the season-page URLs fetched. -/
def scrapeEpisodesAll (env : ScrapeEnv) (fuel : Nat) :
    List Series → Option (List String × List String)
  | [] => some ([], [])
  | sh :: rest =>
      match scrape_show_episodes env sh fuel with
      | none => none
      | some (eps, log) =>
          (scrapeEpisodesAll env fuel rest).map fun r => (eps ++ r.1, log ++ r.2)

/-- The download tail of the `__main__` block when URLs were found
(source line 308): the interpreter's fate as a function of what
`run_ytdlp` did.  A return gives exit code 0 (the script falls off the
end of the module); an exception escaping `run_ytdlp` would abort the
interpreter (exit code 130 for `KeyboardInterrupt`, 1 otherwise). -/
def downloadPhase (res : Except PyExn YtdlpReport) (fetched : List String)
    (ops : List FileOp) (urls : List String) : MainResult :=
  match res with
  | .ok rep => ⟨0, fetched, ops, urls, true, some (.ok rep)⟩
  | .error .keyboardInterrupt =>
      ⟨130, fetched, ops, urls, true, some (.error .keyboardInterrupt)⟩
  | .error e => ⟨1, fetched, ops, urls, true, some (.error e)⟩

/-- The `__main__` block (source lines 271-310), with fuel for the three
unbounded loops; `none` means the run did not terminate within the fuel.
`check_prerequisites` calls `sys.exit(1)` when the cookie file is absent
(source lines 252-256), before any fetch; otherwise the output file is
truncated (source lines 290-291), episode URLs are appended as collected
(source lines 295-302), and `run_ytdlp` is invoked exactly when
`total_urls > 0` (source lines 307-310). -/
def main_run (env : MainEnv) (fuel : Nat) : Option MainResult :=
  if env.sys.cookieExists = false then some ⟨1, [], [], [], false, none⟩
  else
    (scrape_all_series env.scrape fuel).bind fun sf =>
      (scrapeEpisodesAll env.scrape fuel sf.1).bind fun uf =>
        if 0 < uf.1.length then
          some (downloadPhase (run_ytdlp env.sys) (sf.2 ++ uf.2)
            (FileOp.truncate :: uf.1.map FileOp.append) uf.1)
        else
          some ⟨0, sf.2 ++ uf.2, FileOp.truncate :: uf.1.map FileOp.append,
            uf.1, false, none⟩

/-- A concrete operating system for witnesses: cookie and archive files
present, POSIX, `yt-dlp` on the search path, downloader succeeding. -/
def sysAllOk : SysEnv :=
  ⟨true, true, false, fun _ => some "/usr/bin/yt-dlp", fun _ => false, id, .ok⟩

/-- Like `sysAllOk` but the downloader subprocess exits with code 2. -/
def sysDownloaderFails : SysEnv :=
  ⟨true, true, false, fun _ => some "/usr/bin/yt-dlp", fun _ => false, id,
   .calledProcessError 2⟩

/-- Like `sysAllOk` but the cookie file is absent. -/
def sysNoCookie : SysEnv :=
  ⟨false, true, false, fun _ => some "/usr/bin/yt-dlp", fun _ => false, id, .ok⟩

/-- Like `sysAllOk` but no downloader binary resolves anywhere. -/
def sysNoBinary : SysEnv :=
  ⟨true, true, false, fun _ => none, fun _ => false, id, .ok⟩

/-- A concrete catalog with no series: the first index page already
returns the boundary status. -/
def scrapeEmptyCatalog : ScrapeEnv :=
  ⟨fun _ => .boundary, fun _ => [], fun b h => b ++ h⟩

/-- A concrete catalog with one show whose season 1 has one episode and
whose season 2 page is empty; `urljoin` is instantiated with string
concatenation. -/
def scrapeOneShow : ScrapeEnv :=
  ⟨fun p => if p = 1 then .page [⟨some "https://w/sh", some "Show"⟩]
    else .boundary,
   fun page => if page = "https://w/sh/season:1" then ["/e1"] else [],
   fun b h => b ++ h⟩

/-- The expected output lines, written directly from the spec's
description of the output order: for each show in discovery order, for
each season from 1 up to (but excluding) the first empty season
`stop sh.url` in ascending order, the hrefs of the season page in page
order, each joined onto the show URL. -/
def specLines (env : ScrapeEnv) (shows : List Series) (stop : String → Nat) :
    List String :=
  shows.flatMap fun sh =>
    (List.range' 1 (stop sh.url - 1)).flatMap fun n =>
      (env.pageHrefs (seasonUrl sh.url n)).map (env.urljoin sh.url)

/-- A URL is absolute when it carries an explicit http(s) scheme. -/
def isAbsoluteUrl (s : String) : Bool :=
  s.startsWith "http://" || s.startsWith "https://"

theorem blockingGetStep_retry_of_fail (allow400 : Bool) (a : Attempt)
    (hfail : isTransientFailure allow400 a) :
    blockingGetStep allow400 a = .retry (REQUEST_DELAY * 2) := by
  cases a with
  | response s =>
      obtain ⟨h1, h2, h3⟩ := hfail
      have h12 : 400 ≤ s ∧ s < 600 := ⟨h1, h2⟩
      simp only [blockingGetStep, if_neg h3, if_pos h12]
  | netError => rfl

theorem blockingGetStep_done_status (allow400 : Bool) (a : Attempt)
    (s : Nat) (sl : ℚ) (h : blockingGetStep allow400 a = .done s sl) :
    s < 400 ∨ 600 ≤ s ∨ (allow400 = true ∧ s = 400) := by
  cases a with
  | netError => exact absurd h (by simp [blockingGetStep])
  | response t =>
      by_cases h400 : allow400 = true ∧ t = 400
      · simp only [blockingGetStep, if_pos h400] at h
        injection h with ht _
        subst ht
        exact Or.inr (Or.inr h400)
      · by_cases herr : 400 ≤ t ∧ t < 600
        · simp only [blockingGetStep, if_neg h400, if_pos herr] at h
          exact absurd h (by simp)
        · simp only [blockingGetStep, if_neg h400, if_neg herr] at h
          injection h with ht _
          have hs : s < 400 ∨ 600 ≤ s := by omega
          rcases hs with h1 | h1
          · exact Or.inl h1
          · exact Or.inr (Or.inl h1)

theorem blockingGetAux_none_of_all_fail (allow400 : Bool)
    (attempts : Nat → Attempt)
    (h : ∀ i, isTransientFailure allow400 (attempts i)) :
    ∀ fuel i, blockingGetAux allow400 attempts fuel i = none := by
  intro fuel
  induction fuel with
  | zero => intro i; rfl
  | succ n ih =>
      intro i
      unfold blockingGetAux
      rw [blockingGetStep_retry_of_fail allow400 (attempts i) (h i)]
      exact ih (i + 1)

theorem blockingGetAux_some_success (allow400 : Bool)
    (attempts : Nat → Attempt) :
    ∀ fuel i s, blockingGetAux allow400 attempts fuel i = some s →
      s < 400 ∨ 600 ≤ s ∨ (allow400 = true ∧ s = 400) := by
  intro fuel
  induction fuel with
  | zero => intro i s h; exact absurd h (by simp [blockingGetAux])
  | succ n ih =>
      intro i s h
      unfold blockingGetAux at h
      cases hstep : blockingGetStep allow400 (attempts i) with
      | done t sl =>
          rw [hstep] at h
          have hts : t = s := by
            simpa using h
          subst hts
          exact blockingGetStep_done_status allow400 (attempts i) t sl hstep
      | retry b =>
          rw [hstep] at h
          exact ih (i + 1) s h

/-- C1: `blocking_get` retries indefinitely on any transient failure
(HTTP error status, connection error, timeout), sleeping the fixed
backoff `REQUEST_DELAY * 2` between attempts; when every attempt fails
the loop never returns, however much fuel it is given; and whenever it
does return a status, that status is a non-error one (outside
`[400, 600)`) or, with the boundary flag set, the boundary status 400. -/
theorem blocking_get_retries_indefinitely (allow400 : Bool)
    (attempts : Nat → Attempt) :
    (∀ a, isTransientFailure allow400 a →
        blockingGetStep allow400 a = .retry (REQUEST_DELAY * 2)) ∧
    ((∀ i, isTransientFailure allow400 (attempts i)) →
        ∀ fuel, blocking_get allow400 attempts fuel = none) ∧
    (∀ fuel s, blocking_get allow400 attempts fuel = some s →
        s < 400 ∨ 600 ≤ s ∨ (allow400 = true ∧ s = 400)) := by
  refine ⟨?_, ?_, ?_⟩
  · intro a hfail
    exact blockingGetStep_retry_of_fail allow400 a hfail
  · intro h fuel
    exact blockingGetAux_none_of_all_fail allow400 attempts h fuel 0
  · intro fuel s h
    exact blockingGetAux_some_success allow400 attempts fuel 0 s h

/-- Witness for C1 at a concrete input: an oracle whose every attempt is a
connection error makes `blocking_get` return `none` at fuel 7, and an
oracle that succeeds with status 200 on the third attempt makes it return
a status outside `[400, 600)`. -/
theorem blocking_get_retries_indefinitely_witness :
    blocking_get true (fun _ => Attempt.netError) 7 = none ∧
    (200 < 400 ∨ 600 ≤ 200 ∨ (true = true ∧ 200 = 400)) := by
  constructor
  · exact (blocking_get_retries_indefinitely true
      (fun _ => Attempt.netError)).2.1 (fun _ => trivial) 7
  · exact (blocking_get_retries_indefinitely true
      (fun i => if i < 2 then Attempt.netError else Attempt.response 200)).2.2
      7 200 (by decide)

theorem get_series_from_page_eq (env : ScrapeEnv) (q : Nat)
    (h : env.indexPage q ≠ .boundary) :
    get_series_from_page env q = some (indexBatch env q) := by
  unfold get_series_from_page indexBatch
  cases hq : env.indexPage q with
  | boundary => exact absurd hq h
  | page items => rfl

theorem scrapeAllSeriesAux_boundary (env : ScrapeEnv) (f page : Nat)
    (st : List Series × List String)
    (h : get_series_from_page env page = none) :
    scrapeAllSeriesAux env (f + 1) page st = some (st.1, [indexPageUrl page]) := by
  unfold scrapeAllSeriesAux
  rw [h]

theorem scrapeAllSeriesAux_page (env : ScrapeEnv) (f page : Nat)
    (st : List Series × List String) (batch : List Series)
    (h : get_series_from_page env page = some batch) :
    scrapeAllSeriesAux env (f + 1) page st =
      (scrapeAllSeriesAux env f (page + 1) (batch.foldl mergeStep st)).map
        fun r => (r.1, indexPageUrl page :: r.2) := by
  conv_lhs => unfold scrapeAllSeriesAux
  rw [h]

theorem scrapeAllSeriesAux_spec (env : ScrapeEnv) :
    ∀ (k start : Nat) (st : List Series × List String) (fuel : Nat),
      (∀ q, start ≤ q → q < start + k → env.indexPage q ≠ .boundary) →
      env.indexPage (start + k) = .boundary →
      k < fuel →
      scrapeAllSeriesAux env fuel start st =
        some (((((List.range' start k).map (indexBatch env)).flatten).foldl
                mergeStep st).1,
              (List.range' start (k + 1)).map indexPageUrl) := by
  intro k
  induction k with
  | zero =>
      intro start st fuel _ hbound hfuel
      obtain ⟨f, rfl⟩ : ∃ f, fuel = f + 1 := ⟨fuel - 1, by omega⟩
      rw [Nat.add_zero] at hbound
      rw [scrapeAllSeriesAux_boundary env f start st
        (by unfold get_series_from_page; rw [hbound])]
      simp
  | succ k ih =>
      intro start st fuel hne hbound hfuel
      obtain ⟨f, rfl⟩ : ∃ f, fuel = f + 1 := ⟨fuel - 1, by omega⟩
      have hstart : env.indexPage start ≠ .boundary :=
        hne start le_rfl (by omega)
      have hne' : ∀ q, start + 1 ≤ q → q < start + 1 + k →
          env.indexPage q ≠ .boundary := by
        intro q h1 h2
        exact hne q (by omega) (by omega)
      have hbound' : env.indexPage (start + 1 + k) = .boundary := by
        have he : start + 1 + k = start + (k + 1) := by omega
        rw [he]
        exact hbound
      rw [scrapeAllSeriesAux_page env f start st (indexBatch env start)
        (get_series_from_page_eq env start hstart)]
      rw [ih (start + 1) ((indexBatch env start).foldl mergeStep st) f hne'
        hbound' (by omega)]
      simp [List.range'_succ, List.foldl_append]

theorem foldl_mergeStep_eq (l : List Series) :
    ∀ acc seen, l.foldl mergeStep (acc, seen) =
      (acc ++ dedupByUrl l seen,
       seen ++ (dedupByUrl l seen).map Series.url) := by
  induction l with
  | nil => intro acc seen; simp [dedupByUrl]
  | cons s rest ih =>
      intro acc seen
      by_cases hmem : s.url ∈ seen
      · simp only [List.foldl_cons, mergeStep, if_pos hmem, dedupByUrl]
        exact ih acc seen
      · simp only [List.foldl_cons, mergeStep, if_neg hmem, dedupByUrl]
        rw [ih (acc ++ [s]) (seen ++ [s.url])]
        simp

theorem mergeStep_seenInv (st : List Series × List String) (s : Series)
    (h : seenInv st) : seenInv (mergeStep st s) := by
  obtain ⟨h1, h2⟩ := h
  unfold mergeStep
  by_cases hmem : s.url ∈ st.2
  · rw [if_pos hmem]
    exact ⟨h1, h2⟩
  · rw [if_neg hmem]
    refine ⟨?_, ?_⟩
    · simp [h1]
    · simp only [List.nodup_append, List.nodup_singleton, true_and]
      refine ⟨h2, ?_⟩
      intro a ha hb
      simp only [List.mem_singleton] at hb
      subst hb
      exact hmem ha

theorem foldl_mergeStep_seenInv (batch : List Series) :
    ∀ st, seenInv st → seenInv (batch.foldl mergeStep st) := by
  induction batch with
  | nil => intro st h; exact h
  | cons s rest ih =>
      intro st h
      exact ih _ (mergeStep_seenInv st s h)

theorem scrapeAllSeriesAux_nodup (env : ScrapeEnv) :
    ∀ fuel start st l log, seenInv st →
      scrapeAllSeriesAux env fuel start st = some (l, log) →
      (l.map Series.url).Nodup := by
  intro fuel
  induction fuel with
  | zero =>
      intro start st l log _ h
      exact absurd h (by simp [scrapeAllSeriesAux])
  | succ f ih =>
      intro start st l log hinv h
      unfold scrapeAllSeriesAux at h
      cases hp : get_series_from_page env start with
      | none =>
          rw [hp] at h
          simp only [Option.some.injEq, Prod.mk.injEq] at h
          obtain ⟨h1, _⟩ := h
          subst h1
          obtain ⟨hinv1, hinv2⟩ := hinv
          rw [← hinv1]
          exact hinv2
      | some batch =>
          rw [hp] at h
          rcases Option.map_eq_some'.mp h with ⟨⟨l', log'⟩, hrec, heq⟩
          simp only [Prod.mk.injEq] at heq
          obtain ⟨h1, _⟩ := heq
          subst h1
          exact ih (start + 1) (batch.foldl mergeStep st) l' log'
            (foldl_mergeStep_seenInv batch st hinv) hrec

theorem dedupByUrl_sublist :
    ∀ (l : List Series) (seen : List String), (dedupByUrl l seen).Sublist l := by
  intro l
  induction l with
  | nil => intro seen; simp [dedupByUrl]
  | cons s rest ih =>
      intro seen
      unfold dedupByUrl
      by_cases hmem : s.url ∈ seen
      · rw [if_pos hmem]
        exact (ih seen).trans (List.sublist_cons_self s rest)
      · rw [if_neg hmem]
        exact (ih (seen ++ [s.url])).cons₂ s

theorem dedupByUrl_filter_mem :
    ∀ (l : List Series) (seen : List String) (u : String), u ∈ seen →
      (dedupByUrl l seen).filter (fun s => s.url == u) = [] := by
  intro l
  induction l with
  | nil => intro seen u _; rfl
  | cons s rest ih =>
      intro seen u hu
      unfold dedupByUrl
      by_cases hmem : s.url ∈ seen
      · rw [if_pos hmem]
        exact ih seen u hu
      · rw [if_neg hmem]
        have hne : (s.url == u) = false := by
          simp only [beq_eq_false_iff_ne, ne_eq]
          intro he
          exact hmem (he ▸ hu)
        rw [List.filter_cons, hne]
        simp only [Bool.false_eq_true, if_false]
        exact ih (seen ++ [s.url]) u (by simp [hu])

theorem dedupByUrl_filter_not_mem :
    ∀ (l : List Series) (seen : List String) (u : String), u ∉ seen →
      (dedupByUrl l seen).filter (fun s => s.url == u) =
        (l.filter (fun s => s.url == u)).take 1 := by
  intro l
  induction l with
  | nil => intro seen u _; rfl
  | cons s rest ih =>
      intro seen u hu
      unfold dedupByUrl
      by_cases hmem : s.url ∈ seen
      · rw [if_pos hmem]
        have hne : (s.url == u) = false := by
          simp only [beq_eq_false_iff_ne, ne_eq]
          intro he
          exact hu (he ▸ hmem)
        rw [List.filter_cons, hne]
        simp only [Bool.false_eq_true, if_false]
        exact ih seen u hu
      · rw [if_neg hmem]
        by_cases heq : s.url = u
        · have hb : (s.url == u) = true := by simp [heq]
          rw [List.filter_cons, hb, List.filter_cons, hb]
          simp only [if_true]
          rw [dedupByUrl_filter_mem rest (seen ++ [s.url]) u (by simp [heq])]
          simp
        · have hb : (s.url == u) = false := by simp [heq]
          rw [List.filter_cons, hb, List.filter_cons, hb]
          simp only [Bool.false_eq_true, if_false]
          refine ih (seen ++ [s.url]) u ?_
          intro hmem2
          rcases List.mem_append.mp hmem2 with hcase | hcase
          · exact hu hcase
          · exact heq (List.mem_singleton.mp hcase).symm

/-- C2: if series-index page `p` is the first to return the
pagination-boundary status 400 (pages `1..p-1` do not), then
`scrape_all_series` terminates normally there: it returns exactly the
series merged from pages `1` to `p-1`, and the index pages fetched are
exactly pages `1` to `p` — no page beyond the boundary page is fetched
and no further series are added. -/
theorem scrape_all_series_stops_at_boundary (env : ScrapeEnv) (p fuel : Nat)
    (hp : 1 ≤ p)
    (hbefore : ∀ q, 1 ≤ q → q < p → env.indexPage q ≠ .boundary)
    (hbound : env.indexPage p = .boundary)
    (hfuel : p ≤ fuel) :
    scrape_all_series env fuel =
      some (((((List.range' 1 (p - 1)).map (indexBatch env)).flatten).foldl
              mergeStep (([], []) : List Series × List String)).1,
            (List.range' 1 p).map indexPageUrl) := by
  unfold scrape_all_series
  have hb : env.indexPage (1 + (p - 1)) = .boundary := by
    rw [show 1 + (p - 1) = p by omega]
    exact hbound
  have h := scrapeAllSeriesAux_spec env (p - 1) 1 ([], []) fuel
    (fun q h1 h2 => hbefore q h1 (by omega)) hb (by omega)
  rw [show p - 1 + 1 = p by omega] at h
  exact h

/-- Witness for C2: with every index page returning the boundary status,
the walker stops at page 1 with no series, having fetched only the base
series-index URL. -/
theorem scrape_all_series_stops_at_boundary_witness :
    scrape_all_series ⟨fun _ => .boundary, fun _ => [], fun b h => b ++ h⟩ 1 =
      some ([], ["https://watch.dropout.tv/series"]) := by
  have h := scrape_all_series_stops_at_boundary
    ⟨fun _ => .boundary, fun _ => [], fun b h => b ++ h⟩ 1 1 le_rfl
    (fun q h1 h2 => absurd h2 (Nat.not_lt.mpr h1)) rfl le_rfl
  simpa [indexPageUrl, SERIES_INDEX, BASE_URL] using h

/-- C4: the merge of `scrape_all_series` de-duplicates by URL: the loop
invariant (`seen` is exactly the URL list of `all_series`, without
duplicates) is preserved by every per-page merge step, and consequently
no two entries of any returned series list share a URL. -/
theorem scrape_all_series_urls_nodup (env : ScrapeEnv) (fuel : Nat) :
    (∀ (st : List Series × List String) (batch : List Series),
      seenInv st → seenInv (batch.foldl mergeStep st)) ∧
    (∀ l log, scrape_all_series env fuel = some (l, log) →
      (l.map Series.url).Nodup) := by
  constructor
  · intro st batch h
    exact foldl_mergeStep_seenInv batch st h
  · intro l log h
    exact scrapeAllSeriesAux_nodup env fuel 1 ([], []) l log
      ⟨rfl, List.nodup_nil⟩ h

/-- Witness for C4: with the same series URL appearing on two successive
index pages, the merged list has no duplicate URL. -/
theorem scrape_all_series_urls_nodup_witness :
    ([Series.mk "First" "/a"].map Series.url).Nodup := by
  refine (scrape_all_series_urls_nodup
    ⟨fun p => if p = 1 then .page [⟨some "/a", some "First"⟩]
      else if p = 2 then .page [⟨some "/a", some "Second"⟩] else .boundary,
     fun _ => [], fun b h => b ++ h⟩ 3).2 [Series.mk "First" "/a"]
    ["https://watch.dropout.tv/series",
     "https://watch.dropout.tv/series?page=2",
     "https://watch.dropout.tv/series?page=3"] ?_
  rfl

/-- C10: over a complete pagination run that hits the boundary at page
`p`, the returned series list is the first-occurrence de-duplication of
the concatenation of the batches of pages `1..p-1`: it is a sublist of
the discovery sequence (so entries appear in first-seen order), and for
every URL the surviving entry (title included) is exactly the first
discovered one — later duplicates are dropped. -/
theorem scrape_all_series_keeps_first_occurrence (env : ScrapeEnv)
    (p fuel : Nat) (hp : 1 ≤ p)
    (hbefore : ∀ q, 1 ≤ q → q < p → env.indexPage q ≠ .boundary)
    (hbound : env.indexPage p = .boundary)
    (hfuel : p ≤ fuel) :
    ∀ l log, scrape_all_series env fuel = some (l, log) →
      l = dedupByUrl (((List.range' 1 (p - 1)).map (indexBatch env)).flatten)
            [] ∧
      l.Sublist (((List.range' 1 (p - 1)).map (indexBatch env)).flatten) ∧
      ∀ u, l.filter (fun s => s.url == u) =
        ((((List.range' 1 (p - 1)).map (indexBatch env)).flatten).filter
          (fun s => s.url == u)).take 1 := by
  intro l log h
  have hb : env.indexPage (1 + (p - 1)) = .boundary := by
    rw [show 1 + (p - 1) = p by omega]
    exact hbound
  have hspec := scrapeAllSeriesAux_spec env (p - 1) 1 ([], []) fuel
    (fun q h1 h2 => hbefore q h1 (by omega)) hb (by omega)
  unfold scrape_all_series at h
  rw [hspec] at h
  simp only [Option.some.injEq, Prod.mk.injEq] at h
  obtain ⟨h1, _⟩ := h
  rw [foldl_mergeStep_eq] at h1
  simp only [List.nil_append] at h1
  subst h1
  refine ⟨rfl, dedupByUrl_sublist _ [], ?_⟩
  intro u
  exact dedupByUrl_filter_not_mem _ [] u (List.not_mem_nil u)

/-- Witness for C10: the duplicate URL `/a` appears on pages 1 and 2 with
different titles; the merged list keeps the page-1 entry with its title
and drops the page-2 one. -/
theorem scrape_all_series_keeps_first_occurrence_witness :
    [Series.mk "First" "/a"] =
      dedupByUrl (((List.range' 1 2).map (indexBatch
        ⟨fun p => if p = 1 then .page [⟨some "/a", some "First"⟩]
          else if p = 2 then .page [⟨some "/a", some "Second"⟩]
          else .boundary,
         fun _ => [], fun b h => b ++ h⟩)).flatten) [] := by
  have h := scrape_all_series_keeps_first_occurrence
    ⟨fun p => if p = 1 then .page [⟨some "/a", some "First"⟩]
      else if p = 2 then .page [⟨some "/a", some "Second"⟩] else .boundary,
     fun _ => [], fun b h => b ++ h⟩ 3 3 (by omega)
    (fun q h1 h2 => by
      interval_cases q <;> simp)
    rfl le_rfl [Series.mk "First" "/a"]
    ["https://watch.dropout.tv/series",
     "https://watch.dropout.tv/series?page=2",
     "https://watch.dropout.tv/series?page=3"] rfl
  exact h.1

theorem scrapeShowEpisodesAux_empty (env : ScrapeEnv) (u : String)
    (f season : Nat) (acc : List String)
    (h : get_episode_links env u season = []) :
    scrapeShowEpisodesAux env u (f + 1) season acc =
      some (acc, [seasonUrl u season]) := by
  unfold scrapeShowEpisodesAux
  rw [if_pos h]

theorem scrapeShowEpisodesAux_nonempty (env : ScrapeEnv) (u : String)
    (f season : Nat) (acc : List String)
    (h : get_episode_links env u season ≠ []) :
    scrapeShowEpisodesAux env u (f + 1) season acc =
      (scrapeShowEpisodesAux env u f (season + 1)
        (acc ++ get_episode_links env u season)).map
        fun r => (r.1, seasonUrl u season :: r.2) := by
  conv_lhs => unfold scrapeShowEpisodesAux
  rw [if_neg h]

theorem scrapeShowEpisodesAux_spec (env : ScrapeEnv) (u : String) :
    ∀ (k start : Nat) (acc : List String) (fuel : Nat),
      (∀ s, start ≤ s → s < start + k → get_episode_links env u s ≠ []) →
      get_episode_links env u (start + k) = [] →
      k < fuel →
      scrapeShowEpisodesAux env u fuel start acc =
        some (acc ++ ((List.range' start k).map (get_episode_links env u)).flatten,
              (List.range' start (k + 1)).map (seasonUrl u)) := by
  intro k
  induction k with
  | zero =>
      intro start acc fuel _ hemp hfuel
      obtain ⟨f, rfl⟩ : ∃ f, fuel = f + 1 := ⟨fuel - 1, by omega⟩
      rw [Nat.add_zero] at hemp
      rw [scrapeShowEpisodesAux_empty env u f start acc hemp]
      simp
  | succ k ih =>
      intro start acc fuel hne hemp hfuel
      obtain ⟨f, rfl⟩ : ∃ f, fuel = f + 1 := ⟨fuel - 1, by omega⟩
      have hstart : get_episode_links env u start ≠ [] :=
        hne start le_rfl (by omega)
      have hne' : ∀ s, start + 1 ≤ s → s < start + 1 + k →
          get_episode_links env u s ≠ [] := by
        intro s h1 h2
        exact hne s (by omega) (by omega)
      have hemp' : get_episode_links env u (start + 1 + k) = [] := by
        rw [show start + 1 + k = start + (k + 1) by omega]
        exact hemp
      rw [scrapeShowEpisodesAux_nonempty env u f start acc hstart]
      rw [ih (start + 1) (acc ++ get_episode_links env u start) f hne' hemp'
        (by omega)]
      simp [List.range'_succ]

theorem scrape_show_episodes_spec (env : ScrapeEnv)
    (sh : Series) (t fuel : Nat) (ht : 1 ≤ t)
    (hne : ∀ s, 1 ≤ s → s < t → get_episode_links env sh.url s ≠ [])
    (hemp : get_episode_links env sh.url t = [])
    (hfuel : t ≤ fuel) :
    scrape_show_episodes env sh fuel =
      some (((List.range' 1 (t - 1)).map (get_episode_links env sh.url)).flatten,
            (List.range' 1 t).map (seasonUrl sh.url)) := by
  unfold scrape_show_episodes
  have hb : get_episode_links env sh.url (1 + (t - 1)) = [] := by
    rw [show 1 + (t - 1) = t by omega]
    exact hemp
  have h := scrapeShowEpisodesAux_spec env sh.url (t - 1) 1 [] fuel
    (fun s h1 h2 => hne s h1 (by omega)) hb (by omega)
  rw [show t - 1 + 1 = t by omega] at h
  simpa using h

/-- C3: if season `t` is the first season of a show whose page yields zero
episode links (seasons `1..t-1` are non-empty), then `scrape_show_episodes`
probes the season pages in order `1, 2, ..., t` and stops: it returns the
concatenation of the links of seasons `1` to `t-1`, and the season pages
fetched are exactly those of seasons `1` to `t` — no higher season page is
fetched. -/
theorem scrape_show_episodes_stops_at_first_empty (env : ScrapeEnv)
    (sh : Series) (t fuel : Nat) (ht : 1 ≤ t)
    (hne : ∀ s, 1 ≤ s → s < t → get_episode_links env sh.url s ≠ [])
    (hemp : get_episode_links env sh.url t = [])
    (hfuel : t ≤ fuel) :
    scrape_show_episodes env sh fuel =
      some (((List.range' 1 (t - 1)).map (get_episode_links env sh.url)).flatten,
            (List.range' 1 t).map (seasonUrl sh.url)) :=
  scrape_show_episodes_spec env sh t fuel ht hne hemp hfuel

/-- Witness for C3: a show whose season 1 page has two episode links and
whose season 2 page has none contributes exactly those two links, probing
only seasons 1 and 2. -/
theorem scrape_show_episodes_stops_at_first_empty_witness :
    scrape_show_episodes
      ⟨fun _ => .boundary,
       fun page => if page = "https://w/sh/season:1" then ["/e1", "/e2"] else [],
       fun b h => b ++ h⟩
      (Series.mk "Show" "https://w/sh") 2 =
      some (["https://w/sh/e1", "https://w/sh/e2"],
            ["https://w/sh/season:1", "https://w/sh/season:2"]) := by
  rw [scrape_show_episodes_stops_at_first_empty
    ⟨fun _ => .boundary,
     fun page => if page = "https://w/sh/season:1" then ["/e1", "/e2"] else [],
     fun b h => b ++ h⟩
    (Series.mk "Show" "https://w/sh") 2 2 (by omega)
    (fun s h1 h2 => by
      interval_cases s
      decide)
    (by decide) le_rfl]
  rfl

theorem get_ytdlp_binary_cases (sys : SysEnv) :
    (∃ b, get_ytdlp_binary sys = .ok b) ∨
      get_ytdlp_binary sys = .error .fileNotFound := by
  unfold get_ytdlp_binary
  cases hres : resolve_binary sys
      (if sys.osIsWindows then ["yt-dlp.exe", "yt-dlp"] else ["yt-dlp"]) with
  | none => exact Or.inr rfl
  | some b => exact Or.inl ⟨b, rfl⟩

theorem run_ytdlp_total (sys : SysEnv) : ∃ rep, run_ytdlp sys = .ok rep := by
  unfold run_ytdlp
  by_cases hc : sys.cookieExists = false
  · rw [if_pos hc]
    exact ⟨_, rfl⟩
  · rw [if_neg hc]
    rcases get_ytdlp_binary_cases sys with ⟨b, hb⟩ | hb
    · rw [hb]
      cases ho : sys.subprocOutcome with
      | ok => exact ⟨_, rfl⟩
      | calledProcessError c => exact ⟨_, rfl⟩
      | keyboardInterrupt => exact ⟨_, rfl⟩
    · rw [hb]
      exact ⟨_, rfl⟩

/-- C7: the download phase never propagates an exception: `run_ytdlp`
returns normally on every input; when the downloader binary is absent it
reports the error and returns without invoking any subprocess; a non-zero
downloader exit code is reported, not re-thrown; and a user interrupt
during the download is caught and reported rather than propagated. -/
theorem run_ytdlp_never_raises (sys : SysEnv) :
    (∃ rep, run_ytdlp sys = .ok rep) ∧
    (sys.cookieExists = true → get_ytdlp_binary sys = .error .fileNotFound →
      run_ytdlp sys = .ok ⟨false, .missingBinary⟩) ∧
    (∀ c, sys.cookieExists = true →
      (∃ b, get_ytdlp_binary sys = .ok b) →
      sys.subprocOutcome = .calledProcessError c →
      run_ytdlp sys = .ok ⟨true, .reportedExitCode c⟩) ∧
    (sys.cookieExists = true → (∃ b, get_ytdlp_binary sys = .ok b) →
      sys.subprocOutcome = .keyboardInterrupt →
      run_ytdlp sys = .ok ⟨true, .reportedCancelled⟩) := by
  refine ⟨run_ytdlp_total sys, ?_, ?_, ?_⟩
  · intro hc hb
    have hc' : ¬(sys.cookieExists = false) := by rw [hc]; simp
    unfold run_ytdlp
    rw [if_neg hc', hb]
  · intro c hc ⟨b, hb⟩ ho
    have hc' : ¬(sys.cookieExists = false) := by rw [hc]; simp
    unfold run_ytdlp
    rw [if_neg hc', hb, ho]
    rfl
  · intro hc ⟨b, hb⟩ ho
    have hc' : ¬(sys.cookieExists = false) := by rw [hc]; simp
    unfold run_ytdlp
    rw [if_neg hc', hb, ho]
    rfl

/-- Witness for C7: with no downloader binary resolvable, `run_ytdlp`
returns normally, reporting the missing binary without having invoked a
subprocess; and with a downloader exiting 2, the exit code is reported in
a normal return. -/
theorem run_ytdlp_never_raises_witness :
    run_ytdlp sysNoBinary = .ok ⟨false, .missingBinary⟩ ∧
    run_ytdlp sysDownloaderFails = .ok ⟨true, .reportedExitCode 2⟩ := by
  constructor
  · exact (run_ytdlp_never_raises sysNoBinary).2.1 rfl rfl
  · exact (run_ytdlp_never_raises sysDownloaderFails).2.2.1 2 rfl
      ⟨"/usr/bin/yt-dlp", rfl⟩ rfl

theorem scrapeEpisodesAll_cons (env : ScrapeEnv) (fuel : Nat) (sh : Series)
    (rest : List Series) (eps log : List String)
    (h : scrape_show_episodes env sh fuel = some (eps, log)) :
    scrapeEpisodesAll env fuel (sh :: rest) =
      (scrapeEpisodesAll env fuel rest).map fun r => (eps ++ r.1, log ++ r.2) := by
  conv_lhs => unfold scrapeEpisodesAll
  rw [h]

theorem scrapeEpisodesAll_spec (env : ScrapeEnv) (fuel : Nat)
    (stop : String → Nat) :
    ∀ sl : List Series,
      (∀ sh ∈ sl, 1 ≤ stop sh.url ∧ stop sh.url ≤ fuel ∧
        (∀ s, 1 ≤ s → s < stop sh.url → get_episode_links env sh.url s ≠ []) ∧
        get_episode_links env sh.url (stop sh.url) = []) →
      scrapeEpisodesAll env fuel sl =
        some (specLines env sl stop,
          sl.flatMap fun sh => (List.range' 1 (stop sh.url)).map (seasonUrl sh.url)) := by
  intro sl
  induction sl with
  | nil => intro _; rfl
  | cons sh rest ih =>
      intro hall
      obtain ⟨h1, h2, h3, h4⟩ := hall sh (List.mem_cons_self sh rest)
      have hshow := scrape_show_episodes_spec env sh (stop sh.url) fuel h1 h3 h4 h2
      rw [scrapeEpisodesAll_cons env fuel sh rest _ _ hshow]
      rw [ih (fun sh2 hm => hall sh2 (List.mem_cons_of_mem sh hm))]
      simp only [Option.map_some', Option.some.injEq, Prod.mk.injEq,
        List.flatMap_cons]
      exact ⟨rfl, trivial⟩

theorem main_run_cookie_present (env : MainEnv) (fuel : Nat)
    (hc : env.sys.cookieExists = true) (r : MainResult)
    (h : main_run env fuel = some r) :
    ∃ sl f1 urls f2,
      scrape_all_series env.scrape fuel = some (sl, f1) ∧
      scrapeEpisodesAll env.scrape fuel sl = some (urls, f2) ∧
      r.urls = urls ∧ r.fetched = f1 ++ f2 ∧
      r.fileOps = FileOp.truncate :: urls.map FileOp.append ∧
      r.exitCode = 0 ∧
      (0 < urls.length → r.downloadInvoked = true ∧
        r.ytdlpResult = some (run_ytdlp env.sys)) ∧
      (urls.length = 0 → r.downloadInvoked = false ∧ r.ytdlpResult = none) := by
  unfold main_run at h
  have hc' : ¬(env.sys.cookieExists = false) := by rw [hc]; simp
  rw [if_neg hc'] at h
  cases hs : scrape_all_series env.scrape fuel with
  | none => rw [hs] at h; exact absurd h (by simp)
  | some sf =>
      obtain ⟨sl, f1⟩ := sf
      rw [hs, Option.some_bind] at h
      cases he : scrapeEpisodesAll env.scrape fuel sl with
      | none =>
          rw [show ((sl, f1).1 : List Series) = sl from rfl, he] at h
          exact absurd h (by simp)
      | some uf =>
          obtain ⟨urls, f2⟩ := uf
          rw [show ((sl, f1).1 : List Series) = sl from rfl, he,
            Option.some_bind] at h
          refine ⟨sl, f1, urls, f2, rfl, he, ?_⟩
          by_cases hu : 0 < urls.length
          · rw [if_pos hu] at h
            obtain ⟨rep, hrep⟩ := run_ytdlp_total env.sys
            rw [hrep] at h
            injection h with h'
            subst h'
            refine ⟨rfl, rfl, rfl, rfl, ?_, ?_⟩
            · intro _
              refine ⟨rfl, ?_⟩
              rw [hrep]
              rfl
            · intro h0
              omega
          · rw [if_neg hu] at h
            injection h with h'
            subst h'
            refine ⟨rfl, rfl, rfl, rfl, ?_, ?_⟩
            · intro hpos
              exact absurd hpos hu
            · intro _
              exact ⟨rfl, rfl⟩

/-- C5: when the cookie file is absent the process exits with the
non-zero status 1 before any network request: no series-index or season
page is fetched, the output file is untouched and the download phase is
never reached. -/
theorem missing_cookie_file_exits_before_network (env : MainEnv) (fuel : Nat)
    (h : env.sys.cookieExists = false) :
    main_run env fuel = some ⟨1, [], [], [], false, none⟩ ∧ (1 : Int) ≠ 0 := by
  constructor
  · unfold main_run
    rw [if_pos h]
  · decide

/-- Witness for C5 at a concrete environment with the cookie file
absent. -/
theorem missing_cookie_file_exits_before_network_witness :
    main_run ⟨sysNoCookie, scrapeOneShow⟩ 5 =
      some ⟨1, [], [], [], false, none⟩ ∧ (1 : Int) ≠ 0 :=
  missing_cookie_file_exits_before_network ⟨sysNoCookie, scrapeOneShow⟩ 5 rfl

/-- C6 counterexample: the claim that a run collecting zero URLs, or one
whose downloader invocation fails, exits with a status distinguishing it
from a fully successful run is false: a run with zero URLs exits 0, a run
whose downloader exits 2 exits 0, and a fully successful run also exits 0
— the exit status distinguishes none of them. -/
theorem exit_code_does_not_reflect_outcome :
    (main_run ⟨sysAllOk, scrapeEmptyCatalog⟩ 2).map MainResult.exitCode =
      some 0 ∧
    (main_run ⟨sysAllOk, scrapeEmptyCatalog⟩ 2).map MainResult.urls =
      some [] ∧
    (main_run ⟨sysDownloaderFails, scrapeOneShow⟩ 3).map MainResult.exitCode =
      some 0 ∧
    run_ytdlp sysDownloaderFails = .ok ⟨true, .reportedExitCode 2⟩ ∧
    (main_run ⟨sysAllOk, scrapeOneShow⟩ 3).map MainResult.exitCode = some 0 ∧
    run_ytdlp sysAllOk = .ok ⟨true, .downloadComplete⟩ :=
  ⟨rfl, rfl, rfl, rfl, rfl, rfl⟩

/-- C6 amended: when the cookie file is present, every terminating run
exits with status 0 regardless of whether any URLs were found and of
whether the downloader invocation succeeded; those conditions are
reported on the console only, never in the exit status. -/
theorem cookie_present_exit_code_always_zero (env : MainEnv) (fuel : Nat)
    (r : MainResult) (hc : env.sys.cookieExists = true)
    (h : main_run env fuel = some r) : r.exitCode = 0 := by
  obtain ⟨sl, f1, urls, f2, _, _, _, _, _, hexit, _, _⟩ :=
    main_run_cookie_present env fuel hc r h
  exact hexit

/-- Witness for the amended C6: a concrete zero-URL run exits 0. -/
theorem cookie_present_exit_code_always_zero_witness :
    (MainResult.mk 0 ["https://watch.dropout.tv/series"] [FileOp.truncate]
      [] false none).exitCode = 0 :=
  cookie_present_exit_code_always_zero ⟨sysAllOk, scrapeEmptyCatalog⟩ 2 _
    rfl rfl

theorem foldl_applyOp_append :
    ∀ (l c : List String),
      List.foldl applyOp c (l.map FileOp.append) = c ++ l := by
  intro l
  induction l with
  | nil => intro c; simp
  | cons x xs ih =>
      intro c
      rw [List.map_cons, List.foldl_cons]
      rw [show applyOp c (FileOp.append x) = c ++ [x] from rfl, ih]
      simp

/-- C8: in every terminating run that passes the prerequisite check, the
operations on the output file are a truncation first — before any episode
URL is written — followed only by appends of the collected URLs; hence
interpreting them over any previous file content yields exactly this
run's URLs: nothing from a previous invocation survives into or mixes
with the current run's output. -/
theorem output_file_truncated_each_run (env : MainEnv) (fuel : Nat)
    (r : MainResult) (hc : env.sys.cookieExists = true)
    (h : main_run env fuel = some r) :
    r.fileOps = FileOp.truncate :: r.urls.map FileOp.append ∧
    (∀ prev, applyOps prev r.fileOps = r.urls) ∧
    (∀ prev prev', applyOps prev r.fileOps = applyOps prev' r.fileOps) := by
  obtain ⟨sl, f1, urls, f2, _, _, hurls, _, hops, _, _, _⟩ :=
    main_run_cookie_present env fuel hc r h
  refine ⟨by rw [hurls, hops], ?_, ?_⟩
  · intro prev
    rw [hops, hurls]
    unfold applyOps
    rw [List.foldl_cons]
    rw [show applyOp prev FileOp.truncate = [] from rfl]
    rw [foldl_applyOp_append]
    simp
  · intro prev prev'
    rw [hops]
    unfold applyOps
    rw [List.foldl_cons, List.foldl_cons]
    rfl

/-- Witness for C8 at a concrete one-show run: the file operations are
the truncation followed by the single append. -/
theorem output_file_truncated_each_run_witness :
    (MainResult.mk 0
      ["https://watch.dropout.tv/series", "https://watch.dropout.tv/series?page=2",
       "https://w/sh/season:1", "https://w/sh/season:2"]
      [FileOp.truncate, FileOp.append "https://w/sh/e1"]
      ["https://w/sh/e1"] true
      (some (Except.ok ⟨true, YtdlpOutcome.downloadComplete⟩))).fileOps =
      FileOp.truncate ::
        (MainResult.mk 0
          ["https://watch.dropout.tv/series", "https://watch.dropout.tv/series?page=2",
           "https://w/sh/season:1", "https://w/sh/season:2"]
          [FileOp.truncate, FileOp.append "https://w/sh/e1"]
          ["https://w/sh/e1"] true
          (some (Except.ok ⟨true, YtdlpOutcome.downloadComplete⟩))).urls.map
          FileOp.append :=
  (output_file_truncated_each_run ⟨sysAllOk, scrapeOneShow⟩ 3 _ rfl rfl).1

theorem specLines_mem (env : ScrapeEnv) (shows : List Series)
    (stop : String → Nat) (l : String) (hl : l ∈ specLines env shows stop) :
    ∃ sh, sh ∈ shows ∧ ∃ href, l = env.urljoin sh.url href := by
  unfold specLines at hl
  rcases List.mem_flatMap.mp hl with ⟨sh, hsh, hl2⟩
  rcases List.mem_flatMap.mp hl2 with ⟨n, _, hl3⟩
  rcases List.mem_map.mp hl3 with ⟨href, _, he⟩
  exact ⟨sh, hsh, href, he.symm⟩

/-- C9: over a terminating run whose per-show first-empty seasons are
given by `stop`, the file receives the truncation followed by exactly the
lines of `specLines`: grouped by series in discovery order, within each
series by ascending season number up to the first empty season, within
each season in page order, each line being `urljoin` of the show URL and
the extracted href; and if `urljoin` preserves absoluteness and every
show URL is absolute, every written line is an absolute URL. -/
theorem output_lines_absolute_in_discovery_order (env : MainEnv) (fuel : Nat)
    (sl : List Series) (ilog : List String) (stop : String → Nat)
    (hc : env.sys.cookieExists = true)
    (hsl : scrape_all_series env.scrape fuel = some (sl, ilog))
    (hstop : ∀ sh ∈ sl, 1 ≤ stop sh.url ∧ stop sh.url ≤ fuel ∧
      (∀ s, 1 ≤ s → s < stop sh.url → get_episode_links env.scrape sh.url s ≠ []) ∧
      get_episode_links env.scrape sh.url (stop sh.url) = []) :
    ∃ r, main_run env fuel = some r ∧
      r.urls = specLines env.scrape sl stop ∧
      r.fileOps = FileOp.truncate ::
        (specLines env.scrape sl stop).map FileOp.append ∧
      ((∀ b h, isAbsoluteUrl b = true → isAbsoluteUrl (env.scrape.urljoin b h) = true) →
        (∀ sh ∈ sl, isAbsoluteUrl sh.url = true) →
        ∀ l ∈ r.urls, isAbsoluteUrl l = true) := by
  have hep := scrapeEpisodesAll_spec env.scrape fuel stop sl hstop
  have habs : ∀ r : MainResult, r.urls = specLines env.scrape sl stop →
      (∀ b h, isAbsoluteUrl b = true → isAbsoluteUrl (env.scrape.urljoin b h) = true) →
      (∀ sh ∈ sl, isAbsoluteUrl sh.url = true) →
      ∀ l ∈ r.urls, isAbsoluteUrl l = true := by
    intro r hr hjoin hshows l hl
    rw [hr] at hl
    rcases specLines_mem env.scrape sl stop l hl with ⟨sh, hsh, href, rfl⟩
    exact hjoin sh.url href (hshows sh hsh)
  unfold main_run
  have hc' : ¬(env.sys.cookieExists = false) := by rw [hc]; simp
  rw [if_neg hc', hsl, Option.some_bind,
    show ((sl, ilog).1 : List Series) = sl from rfl, hep, Option.some_bind]
  by_cases hu : 0 < (specLines env.scrape sl stop).length
  · rw [if_pos hu]
    obtain ⟨rep, hrep⟩ := run_ytdlp_total env.sys
    rw [hrep]
    refine ⟨_, rfl, rfl, rfl, habs _ rfl⟩
  · rw [if_neg hu]
    refine ⟨_, rfl, rfl, rfl, habs _ rfl⟩

/-- Witness for C9 at the concrete one-show catalog: the single line
written is the join of the show URL with the extracted href, and it is
absolute. -/
theorem output_lines_absolute_in_discovery_order_witness :
    ∃ r, main_run ⟨sysAllOk, scrapeOneShow⟩ 3 = some r ∧
      r.urls = specLines scrapeOneShow [Series.mk "Show" "https://w/sh"]
        (fun _ => 2) ∧
      r.fileOps = FileOp.truncate ::
        (specLines scrapeOneShow [Series.mk "Show" "https://w/sh"]
          (fun _ => 2)).map FileOp.append ∧
      ((∀ b h, isAbsoluteUrl b = true →
          isAbsoluteUrl (scrapeOneShow.urljoin b h) = true) →
        (∀ sh ∈ [Series.mk "Show" "https://w/sh"], isAbsoluteUrl sh.url = true) →
        ∀ l ∈ r.urls, isAbsoluteUrl l = true) := by
  refine output_lines_absolute_in_discovery_order ⟨sysAllOk, scrapeOneShow⟩ 3
    [Series.mk "Show" "https://w/sh"]
    ["https://watch.dropout.tv/series", "https://watch.dropout.tv/series?page=2"]
    (fun _ => 2) rfl rfl ?_
  intro sh hsh
  simp only [List.mem_singleton] at hsh
  subst hsh
  refine ⟨by decide, by decide, ?_, by decide⟩
  intro s h1 h2
  have hlt : s < 2 := h2
  have hs1 : s = 1 := by omega
  subst hs1
  decide

end DownloadDropout
